import Mathlib

/-!
Verification of the TriliumNext share-search subsystem.

This file shallowly embeds:
  * the share router (`src/unnamed/part_004`), which contains two complete
    variants (a dynamic-dispatch middleware variant and a per-route express
    variant) of `checkNoteAccess` and of the `GET /share/api/notes` search
    handler, and
  * `SearchContext` (`src/apps/server/src/services/search/search_context.ts`).

External collaborators that are not part of this repository (the `shaca`
entity classes, the `safe-compare` npm package, Node `Buffer` base64/utf-8
decoding, the hoisted-note service and the search executor
`findResultsWithQuery`) are modelled from their documented behaviour / the
specification and are marked as such in the corresponding doc comments.

Machine-level conventions: JavaScript strings are Lean `String`s; the byte
sequences produced by `Buffer.from(s, "base64")` are `List Nat` (each entry
a byte below 256); option-typed fields model `undefined`.
-/

namespace Trilium

/-! ## JavaScript primitives -/

/-- JS `String.prototype.startsWith`, defined on the character list so that
proofs can evaluate it. -/
def jsStartsWith (s p : String) : Bool :=
  s.data.take p.data.length == p.data

/-- JS `String.prototype.substring(n)` (drop the first `n` characters),
defined on the character list so that proofs can evaluate it. -/
def jsDropChars (s : String) (n : Nat) : String :=
  String.mk (s.data.drop n)

/-- JS `String.prototype.trim`, defined on the character list (whitespace
per `Char.isWhitespace`). -/
def jsTrim (s : String) : String :=
  String.mk (((s.data.dropWhile Char.isWhitespace).reverse.dropWhile Char.isWhitespace).reverse)

/-- JS `Array.prototype.indexOf` on string arrays: index of the first
occurrence, `-1` when absent (returned as an `Int` exactly as in JS). -/
def jsIndexOf (l : List String) (x : String) : Int :=
  match l with
  | [] => -1
  | y :: ys =>
    if y == x then 0
    else
      let r := jsIndexOf ys x
      if r < 0 then -1 else r + 1

/-- Value of one base64 alphabet character, `none` for characters outside the
alphabet (Node `Buffer.from(·, "base64")` skips those). -/
def b64Val (c : Char) : Option Nat :=
  if 'A' ≤ c ∧ c ≤ 'Z' then some (c.toNat - 65)
  else if 'a' ≤ c ∧ c ≤ 'z' then some (c.toNat - 97 + 26)
  else if '0' ≤ c ∧ c ≤ '9' then some (c.toNat - 48 + 52)
  else if c = '+' then some 62
  else if c = '/' then some 63
  else none

/-- Packs a stream of base64 sextets into bytes: every full group of four
sextets yields three bytes, a trailing group of two or three sextets yields
one or two bytes (standard base64, matching Node for well-formed input). -/
def sextetsToBytes : List Nat → List Nat
  | a :: b :: c :: d :: rest =>
      (a * 4 + b / 16) :: ((b % 16) * 16 + c / 4) :: ((c % 4) * 64 + d) :: sextetsToBytes rest
  | [a, b] => [a * 4 + b / 16]
  | [a, b, c] => [a * 4 + b / 16, (b % 16) * 16 + c / 4]
  | _ => []

/-- Modelled from the documented behaviour of Node
`Buffer.from(base64Str, "base64")`: decode the base64 alphabet characters of
the string into a byte list, ignoring padding and characters outside the
alphabet. -/
def base64Decode (s : String) : List Nat :=
  sextetsToBytes (s.data.filterMap b64Val)

/-- Standard UTF-8 encoding of a single character as bytes. -/
def utf8EncodeCharNat (c : Char) : List Nat :=
  let n := c.toNat
  if n < 128 then [n]
  else if n < 2048 then [192 + n / 64, 128 + n % 64]
  else if n < 65536 then [224 + n / 4096, 128 + (n / 64) % 64, 128 + n % 64]
  else [240 + n / 262144, 128 + (n / 4096) % 64, 128 + (n / 64) % 64, 128 + n % 64]

/-- UTF-8 bytes of a string; used to compare the decoded Basic-auth byte
sequence against a credential value (`Buffer.toString("utf-8")` followed by a
string comparison is modelled at the byte level). -/
def utf8Bytes (s : String) : List Nat :=
  (s.data.map utf8EncodeCharNat).flatten

/-- Modelled from the documented behaviour of the `safe-compare` npm package:
a constant-time comparison that is functionally equality of the two byte
sequences. -/
def safeCompare (a b : List Nat) : Bool :=
  a == b

/-! ## Share cache (`shaca`) data model -/

/-- One credential label (`shareCredentials`) of a shared note; only the
label value participates in the Basic-auth check. -/
structure Label where
  name : String
  value : String
deriving DecidableEq

/-- Modelled from the spec: a note of the public share cache (`shaca` entity
`SNote`, not under `src/`) with the fields the share router reads: its
internal `noteId`, its `title`, its public `shareId` (alias label value or
raw noteId, precomputed by the cache loader) and its credential labels. -/
structure SNote where
  noteId : String
  title : String
  shareId : String
  credentials : List Label
deriving DecidableEq

/-- Modelled from the spec: `SNote.getCredentials` returns the note's
credential labels. -/
def SNote.getCredentials (n : SNote) : List Label :=
  n.credentials

/-- Modelled from the spec: the public share cache with its note map
(`shaca.notes`, here an association list from noteId to note) and the
`shareIndexEnabled` flag. -/
structure Shaca where
  notes : List (String × SNote)
  shareIndexEnabled : Bool
deriving DecidableEq

/-- `shaca.getNote(noteId)` / the unguarded indexing `shaca.notes[noteId]`:
lookup in the note map, `none` for `undefined`. -/
def Shaca.getNote (s : Shaca) (noteId : String) : Option SNote :=
  s.notes.lookup noteId

/-! ## HTTP request model -/

/-- An express query-string value: a plain string or an array (repeated
parameter); `typeof v !== "string"` distinguishes the two. -/
inductive QueryValue where
  | str : String → QueryValue
  | arr : List String → QueryValue
deriving DecidableEq

/-- The part of an express `Request` the share search path reads: the
`Authorization` header and the `ancestorNoteId` / `search` query values
(`none` models an absent header/parameter). -/
structure Request where
  authorization : Option String
  ancestorNoteIdParam : Option QueryValue
  searchParam : Option QueryValue
deriving DecidableEq

/-! ## Access check (`checkNoteAccess`, both variants) -/

/-- Outcome of `checkNoteAccess`: the note on success, or the response the
function itself wrote (404 / 403), or `denied` — the bare `return false`
taken on a credential failure, which writes no response. -/
inductive AccessResult where
  | granted : SNote → AccessResult
  | notFound : String → AccessResult
  | forbidden : String → AccessResult
  | denied : AccessResult
deriving DecidableEq

/-- HTTP status written by `checkNoteAccess` itself (`none` when the
function wrote nothing: success, or the bare `return false`). -/
def AccessResult.emittedStatus : AccessResult → Option Nat
  | AccessResult.notFound _ => some 404
  | AccessResult.forbidden _ => some 403
  | AccessResult.granted _ => none
  | AccessResult.denied => none

def noteNotFoundMsg (noteId : String) : String :=
  "Note \x27" ++ noteId ++ "\x27 not found."

def shareIndexForbiddenMsg : String :=
  "Accessing share index is forbidden."

/-- `checkNoteAccess` of the dynamic-dispatch middleware variant
(`src/unnamed/part_004`, lines 67–105): 404 when the note is not in the
cache; 403 for the reserved `_share` index when disabled; otherwise grant
when the note has no credential labels, and with credential labels grant
exactly when the `Authorization: Basic` header decodes to a byte sequence
equal to one of the credential values, returning bare `false` (no response)
otherwise. -/
def checkNoteAccessMw (shaca : Shaca) (noteId : String) (req : Request) : AccessResult :=
  match shaca.getNote noteId with
  | none => AccessResult.notFound (noteNotFoundMsg noteId)
  | some note =>
    if noteId == "_share" && !shaca.shareIndexEnabled then
      AccessResult.forbidden shareIndexForbiddenMsg
    else
      let credentials := note.getCredentials
      if credentials.isEmpty then
        AccessResult.granted note
      else
        match req.authorization with
        | none => AccessResult.denied
        | some header =>
          if !(jsStartsWith header "Basic ") then
            AccessResult.denied
          else
            let base64Str := jsDropChars header 6
            let authString := base64Decode base64Str
            if credentials.any (fun credentialLabel => safeCompare authString (utf8Bytes credentialLabel.value)) then
              AccessResult.granted note
            else
              AccessResult.denied

/-- `checkNoteAccess` of the per-route express variant
(`src/unnamed/part_004`, lines 436–474); the source body is textually the
same as the middleware variant's. -/
def checkNoteAccess (shaca : Shaca) (noteId : String) (req : Request) : AccessResult :=
  match shaca.getNote noteId with
  | none => AccessResult.notFound (noteNotFoundMsg noteId)
  | some note =>
    if noteId == "_share" && !shaca.shareIndexEnabled then
      AccessResult.forbidden shareIndexForbiddenMsg
    else
      let credentials := note.getCredentials
      if credentials.isEmpty then
        AccessResult.granted note
      else
        match req.authorization with
        | none => AccessResult.denied
        | some header =>
          if !(jsStartsWith header "Basic ") then
            AccessResult.denied
          else
            let base64Str := jsDropChars header 6
            let authString := base64Decode base64Str
            if credentials.any (fun credentialLabel => safeCompare authString (utf8Bytes credentialLabel.value)) then
              AccessResult.granted note
            else
              AccessResult.denied

/-- Abbreviation for the credential-matching step of `checkNoteAccess`
(header present, starts with `"Basic "`, and the decoded bytes equal some
credential value); used to state theorems about the credentialed branch. -/
def credentialsMatch (auth : Option String) (creds : List Label) : Bool :=
  match auth with
  | none => false
  | some header =>
    jsStartsWith header "Basic " &&
      creds.any (fun credentialLabel =>
        safeCompare (base64Decode (jsDropChars header 6)) (utf8Bytes credentialLabel.value))

/-! ## Share search endpoint (`GET /share/api/notes`) -/

/-- One row produced by `searchService.findResultsWithQuery` as the share
search handler consumes it: `noteId`, `notePathArray`, `score`. The search
executor itself is not under `src/`; per the spec it yields scored
`(noteId, notePathArray, score)` results, so the handler is parameterized by
its output. -/
structure SearchRow where
  noteId : String
  notePathArray : List String
  score : Int
deriving DecidableEq

/-- One entry of the handler's JSON `results` array:
`{ id, title, score, path }`. -/
structure ShareSearchResult where
  id : String
  title : String
  score : Int
  path : String
deriving DecidableEq

/-- The per-result mapping of the share search handler
(`src/unnamed/part_004`, lines 710–716): look up the full note by the
internal noteId (unguarded indexing — `none` models the `TypeError` thrown
when the noteId is absent from the cache), cut `notePathArray` just after the
first occurrence of `ancestorNoteId` (JS `indexOf` is `-1` when absent, so
`slice(-1 + 1)` keeps the whole array), keep only ids present in the cache,
and join their titles with `" / "`. The `.getD ""` branch of the title read
is unreachable under the preceding filter. -/
def mapSearchRow (shaca : Shaca) (ancestorNoteId : String) (sr : SearchRow) : Option ShareSearchResult :=
  match shaca.getNote sr.noteId with
  | none => none
  | some fullNote =>
    let startIndex : Int := jsIndexOf sr.notePathArray ancestorNoteId
    let localPathArray :=
      (sr.notePathArray.drop (startIndex + 1).toNat).filter
        (fun nid => (shaca.getNote nid).isSome)
    let pathTitle :=
      " / ".intercalate
        (localPathArray.map (fun nid => ((shaca.getNote nid).map SNote.title).getD ""))
    some { id := fullNote.shareId, title := fullNote.title, score := sr.score, path := pathTitle }

/-- The handler's `searchResults.map(...)` over the per-result mapping: JS
`Array.prototype.map` throws at the first failing element, so the whole
mapping is `none` as soon as one row's note lookup fails. -/
def mapRows (shaca : Shaca) (ancestorNoteId : String) : List SearchRow → Option (List ShareSearchResult)
  | [] => some []
  | sr :: rest =>
    match mapSearchRow shaca ancestorNoteId sr, mapRows shaca ancestorNoteId rest with
    | some r, some rs => some (r :: rs)
    | _, _ => none

/-- Response of the share search endpoint. `noResponse` is the handler
returning without writing anything (the bare `return` after a credential
failure); `throws` is an uncaught exception escaping the handler. -/
inductive SearchResponse where
  | badRequest : String → SearchResponse
  | notFound : String → SearchResponse
  | forbidden : String → SearchResponse
  | noResponse : SearchResponse
  | ok : List ShareSearchResult → SearchResponse
  | throws : SearchResponse
deriving DecidableEq

/-- HTTP status of the response (`none` when no status was written by the
handler: nothing sent, or an exception escaped). -/
def SearchResponse.status : SearchResponse → Option Nat
  | SearchResponse.badRequest _ => some 400
  | SearchResponse.notFound _ => some 404
  | SearchResponse.forbidden _ => some 403
  | SearchResponse.noResponse => none
  | SearchResponse.ok _ => some 200
  | SearchResponse.throws => none

/-- The handler's test `typeof search !== "string" || !search?.trim()`: the
`search` query value is absent, not a plain string, or blank after
trimming. -/
def searchParamBlank (req : Request) : Bool :=
  match req.searchParam with
  | some (QueryValue.str search) => jsTrim search == ""
  | _ => true

def ancestorMandatoryMsg : String :=
  "\x27ancestorNoteId\x27 parameter is mandatory."

def searchMandatoryMsg : String :=
  "\x27search\x27 parameter is mandatory."

/-- The `GET /share/api/notes` handler (`src/unnamed/part_004`, lines
686–719; the middleware variant's lines 354–383 are the same logic):
`ancestorNoteId` defaults to `"_share"` when absent (`?? "_share"`), a
non-string value is a 400; then `checkNoteAccess` runs on the ancestor
(propagating the 404/403 it wrote, or returning silently on a credential
failure); then a missing, non-string or blank `search` parameter is a 400;
finally the results of `findResultsWithQuery` (passed in as `searchResults`)
are mapped to the public shape. -/
def shareApiNotes (shaca : Shaca) (req : Request) (searchResults : List SearchRow) : SearchResponse :=
  match req.ancestorNoteIdParam.getD (QueryValue.str "_share") with
  | QueryValue.arr _ => SearchResponse.badRequest ancestorMandatoryMsg
  | QueryValue.str ancestorNoteId =>
    match checkNoteAccess shaca ancestorNoteId req with
    | AccessResult.notFound m => SearchResponse.notFound m
    | AccessResult.forbidden m => SearchResponse.forbidden m
    | AccessResult.denied => SearchResponse.noResponse
    | AccessResult.granted _ =>
      match req.searchParam with
      | some (QueryValue.str search) =>
        if jsTrim search == "" then
          SearchResponse.badRequest searchMandatoryMsg
        else
          match mapRows shaca ancestorNoteId searchResults with
          | some rs => SearchResponse.ok rs
          | none => SearchResponse.throws
      | _ => SearchResponse.badRequest searchMandatoryMsg

/-! ## Spec-side path formulation (for the result-mapping claim) -/

/-- Spec-side: the elements of a list strictly after the first occurrence of
`aid` (empty when `aid` does not occur). -/
def pathAfterFirst (aid : String) : List String → List String
  | [] => []
  | x :: xs => if x = aid then xs else pathAfterFirst aid xs

/-- Spec-side formulation of the breadcrumb: titles of the notes on the path
strictly after the ancestor position, keeping only ids present in the public
cache, joined with `" / "`. -/
def specSharePath (shaca : Shaca) (ancestorNoteId : String) (notePathArray : List String) : String :=
  " / ".intercalate
    ((pathAfterFirst ancestorNoteId notePathArray).filterMap
      (fun nid => (shaca.getNote nid).map SNote.title))

/-! ## SearchContext -/

/-- Constructor input of `SearchContext`
(`SearchParams`, `services/search/services/types.ts`): every recognized
option is optional. `enableFuzzyMatching` is carried to express that the
constructor ignores it regardless of input. -/
structure SearchParams where
  fastSearch : Option Bool := none
  includeArchivedNotes : Option Bool := none
  includeHiddenNotes : Option Bool := none
  ignoreHoistedNote : Option Bool := none
  ignoreInternalAttributes : Option Bool := none
  ancestorNoteId : Option String := none
  ancestorDepth : Option String := none
  orderBy : Option String := none
  orderDirection : Option String := none
  limit : Option Int := none
  debug : Option Bool := none
  fuzzyAttributeSearch : Option Bool := none
  enableFuzzyMatching : Option Bool := none
deriving DecidableEq

/-- JS truthiness of a `string | null | undefined` value: `undefined`/`null`
and the empty string are falsy. -/
def jsTruthyStr : Option String → Bool
  | none => false
  | some s => !(s == "")

/-- The `SearchContext` class
(`src/apps/server/src/services/search/search_context.ts`). -/
structure SearchContext where
  fastSearch : Bool
  includeArchivedNotes : Bool
  includeHiddenNotes : Bool
  ignoreHoistedNote : Bool
  ignoreInternalAttributes : Bool
  ancestorNoteId : Option String
  ancestorDepth : Option String
  orderBy : Option String
  orderDirection : Option String
  limit : Option Int
  debug : Option Bool
  fuzzyAttributeSearch : Bool
  enableFuzzyMatching : Bool
  highlightedTokens : List String
  originalQuery : String
  fulltextQuery : String
  dbLoadNeeded : Bool
  error : Option String
deriving DecidableEq

/-- The `SearchContext` constructor (lines 28–57 of `search_context.ts`).
`hoistedNoteId` is the value of `hoistedNoteService.getHoistedNoteId()` (the
hoisted-note service is not under `src/`; per the spec it is the globally
configured hoisted note id, passed here explicitly). The ancestor defaulting
reproduces the JS falsiness test `!this.ancestorNoteId` (absent or empty
string). -/
def SearchContext.create (params : SearchParams) (hoistedNoteId : String) : SearchContext :=
  let ignoreHoistedNote := params.ignoreHoistedNote.getD false
  let ancestorNoteId :=
    if !(jsTruthyStr params.ancestorNoteId) && !ignoreHoistedNote then
      some hoistedNoteId
    else
      params.ancestorNoteId
  { fastSearch := params.fastSearch.getD false
    includeArchivedNotes := params.includeArchivedNotes.getD false
    includeHiddenNotes := params.includeHiddenNotes.getD false
    ignoreHoistedNote := ignoreHoistedNote
    ignoreInternalAttributes := params.ignoreInternalAttributes.getD false
    ancestorNoteId := ancestorNoteId
    ancestorDepth := params.ancestorDepth
    orderBy := params.orderBy
    orderDirection := params.orderDirection
    limit := params.limit
    debug := params.debug
    fuzzyAttributeSearch := params.fuzzyAttributeSearch.getD false
    enableFuzzyMatching := true
    highlightedTokens := []
    originalQuery := ""
    fulltextQuery := ""
    dbLoadNeeded := false
    error := none }

/-- `SearchContext.addError` (lines 59–64): `if (!this.error) this.error =
error;` — only a context whose stored error is JS-falsy (null or the empty
string) is updated. -/
def SearchContext.addError (ctx : SearchContext) (error : String) : SearchContext :=
  if !(jsTruthyStr ctx.error) then
    { ctx with error := some error }
  else
    ctx

/-- `SearchContext.hasError` (lines 66–68): `return !!this.error;`. -/
def SearchContext.hasError (ctx : SearchContext) : Bool :=
  jsTruthyStr ctx.error

/-- `SearchContext.getError` (lines 70–72). -/
def SearchContext.getError (ctx : SearchContext) : Option String :=
  ctx.error

/-! ## Concrete fixtures used by witnesses and counterexamples -/

/-- A shared ancestor note without credential labels. -/
def noteAnc : SNote := ⟨"anc", "Ancestor", "anc-share", []⟩

/-- A shared note protected by the credential value `user:pass`. -/
def noteSec : SNote := ⟨"sec", "Secret", "sec-share", [⟨"shareCredentials", "user:pass"⟩]⟩

/-- A plain shared child note. -/
def noteKid : SNote := ⟨"kid", "Kid", "kid-share", []⟩

/-- The reserved share-index root note. -/
def shareRootNote : SNote := ⟨"_share", "Share root", "_share", []⟩

/-- A share cache holding the three fixture notes, share index enabled. -/
def cacheMain : Shaca := ⟨[("anc", noteAnc), ("sec", noteSec), ("kid", noteKid)], true⟩

/-- A share cache holding only the share-index root, share index disabled. -/
def cacheIndexDisabled : Shaca := ⟨[("_share", shareRootNote)], false⟩

/-- An empty share cache with the share index disabled. -/
def cacheEmptyDisabled : Shaca := ⟨[], false⟩

/-! ## Helper lemmas -/

/-- `checkNoteAccess` only reads the `Authorization` header of the request,
so requests differing only in query parameters get the same decision. -/
theorem checkNoteAccess_congr_auth (shaca : Shaca) (noteId : String) (r r2 : Request)
    (h : r.authorization = r2.authorization) :
    checkNoteAccess shaca noteId r = checkNoteAccess shaca noteId r2 := by
  unfold checkNoteAccess
  rw [h]

/-- On a cached note that is not gated by the share index and carries
credential labels, `checkNoteAccess` grants exactly when the request's
Basic-auth header decodes to one of the credential values, and otherwise
returns the bare `false` (no response written). -/
theorem checkNoteAccess_credentialed (shaca : Shaca) (noteId : String) (req : Request)
    (note : SNote) (hn : shaca.getNote noteId = some note)
    (hgate : (noteId == "_share" && !shaca.shareIndexEnabled) = false)
    (hc : note.getCredentials ≠ []) :
    checkNoteAccess shaca noteId req =
      (if credentialsMatch req.authorization note.getCredentials then
        AccessResult.granted note
      else
        AccessResult.denied) := by
  have hne : note.getCredentials.isEmpty = false := by
    cases hcc : note.getCredentials with
    | nil => exact absurd hcc hc
    | cons a l => rfl
  unfold checkNoteAccess credentialsMatch
  rw [hn]
  simp only [hgate, Bool.false_eq_true, if_false, hne]
  cases req.authorization with
  | none => rfl
  | some header =>
    cases hsw : jsStartsWith header "Basic " with
    | false => simp [hsw]
    | true =>
      cases hany : note.getCredentials.any
          (fun credentialLabel =>
            safeCompare (base64Decode (jsDropChars header 6)) (utf8Bytes credentialLabel.value)) with
      | false => simp [hsw, hany]
      | true => simp [hsw, hany]

/-- A `checkNoteAccess` 403 can only come from the share-index gate, which
requires the share index to be disabled. -/
theorem checkNoteAccess_forbidden_disabled (shaca : Shaca) (nid : String) (req : Request)
    (m : String) (h : checkNoteAccess shaca nid req = AccessResult.forbidden m) :
    shaca.shareIndexEnabled = false := by
  cases hg : shaca.getNote nid with
  | none =>
    unfold checkNoteAccess at h
    rw [hg] at h
    cases h
  | some note =>
    cases hb : (nid == "_share" && !shaca.shareIndexEnabled) with
    | true =>
      have := (Bool.and_eq_true _ _).mp hb
      simpa using this.2
    | false =>
      by_cases hc : note.getCredentials = []
      · unfold checkNoteAccess at h
        rw [hg] at h
        simp [hb, hc] at h
      · rw [checkNoteAccess_credentialed shaca nid req note hg hb hc] at h
        split at h <;> simp at h

/-- With the share index disabled, accessing a cached `_share` note is the
403 of the share-index gate. -/
theorem checkNoteAccess_share_gate (shaca : Shaca) (req : Request) (n : SNote)
    (hg : shaca.getNote "_share" = some n) (hE : shaca.shareIndexEnabled = false) :
    checkNoteAccess shaca "_share" req = AccessResult.forbidden shareIndexForbiddenMsg := by
  unfold checkNoteAccess
  rw [hg]
  simp [hE]

/-- With the share index enabled and no credential labels, a cached note is
granted. -/
theorem checkNoteAccess_granted_plain (shaca : Shaca) (nid : String) (req : Request)
    (n : SNote) (hg : shaca.getNote nid = some n) (hE : shaca.shareIndexEnabled = true)
    (hc : n.getCredentials = []) :
    checkNoteAccess shaca nid req = AccessResult.granted n := by
  unfold checkNoteAccess
  rw [hg]
  simp [hE, hc]

/-- The per-result mapping succeeds exactly when the unguarded note lookup
succeeds. -/
theorem mapSearchRow_none_iff (shaca : Shaca) (aid : String) (sr : SearchRow) :
    mapSearchRow shaca aid sr = none ↔ shaca.getNote sr.noteId = none := by
  unfold mapSearchRow
  cases shaca.getNote sr.noteId <;> simp

/-- When every row's note is in the cache, the result mapping succeeds and
is length-preserving (one output entry per search result). -/
theorem mapRows_length (shaca : Shaca) (aid : String) (rows : List SearchRow)
    (h : ∀ sr ∈ rows, (shaca.getNote sr.noteId).isSome = true) :
    ∃ rs, mapRows shaca aid rows = some rs ∧ rs.length = rows.length := by
  induction rows with
  | nil => exact ⟨[], rfl, rfl⟩
  | cons sr rest ih =>
    obtain ⟨rs, hrs, hlen⟩ := ih (fun x hx => h x (List.mem_cons_of_mem _ hx))
    have h1 := h sr (List.mem_cons_self _ _)
    have h2 : ¬(mapSearchRow shaca aid sr = none) := by
      rw [mapSearchRow_none_iff]
      intro hcon
      rw [hcon] at h1
      cases h1
    obtain ⟨r, hr⟩ := Option.ne_none_iff_exists.mp h2
    refine ⟨r :: rs, ?_, by simp [hlen]⟩
    unfold mapRows
    rw [← hr, hrs]

/-- The whole mapping throws exactly when some row's noteId is absent from
the cache. -/
theorem mapRows_none_iff (shaca : Shaca) (aid : String) (rows : List SearchRow) :
    mapRows shaca aid rows = none ↔ ∃ sr ∈ rows, shaca.getNote sr.noteId = none := by
  induction rows with
  | nil => simp [mapRows]
  | cons sr rest ih =>
    unfold mapRows
    cases hm : mapSearchRow shaca aid sr with
    | none =>
      refine ⟨fun _ => ⟨sr, List.mem_cons_self _ _, (mapSearchRow_none_iff shaca aid sr).mp hm⟩,
        fun _ => rfl⟩
    | some r =>
      cases hr : mapRows shaca aid rest with
      | none =>
        refine ⟨fun _ => ?_, fun _ => rfl⟩
        obtain ⟨x, hx, hxn⟩ := ih.mp hr
        exact ⟨x, List.mem_cons_of_mem _ hx, hxn⟩
      | some rs =>
        refine ⟨fun hcon => Option.noConfusion hcon, fun hex => ?_⟩
        exfalso
        obtain ⟨x, hx, hxn⟩ := hex
        rcases List.mem_cons.mp hx with h1 | h2
        · subst h1
          rw [(mapSearchRow_none_iff shaca aid x).mpr hxn] at hm
          exact Option.noConfusion hm
        · rw [ih.mpr ⟨x, h2, hxn⟩] at hr
          exact Option.noConfusion hr

/-- The first JS index of a present element, as a natural number, together
with the slice identity used by the breadcrumb computation. -/
theorem jsIndexOf_drop (aid : String) (l : List String) (h : aid ∈ l) :
    ∃ m : Nat, jsIndexOf l aid = (m : Int) ∧ l.drop (m + 1) = pathAfterFirst aid l := by
  induction l with
  | nil => cases h
  | cons x xs ih =>
    by_cases hx : x = aid
    · refine ⟨0, ?_, ?_⟩
      · unfold jsIndexOf
        simp [hx]
      · unfold pathAfterFirst
        simp [hx]
    · have hmem : aid ∈ xs := by
        rcases List.mem_cons.mp h with h1 | h2
        · exact absurd h1.symm hx
        · exact h2
      obtain ⟨m, hm, hd⟩ := ih hmem
      refine ⟨m + 1, ?_, ?_⟩
      · unfold jsIndexOf
        have hxb : (x == aid) = false := by simp [hx]
        simp only [hxb, Bool.false_eq_true, if_false, hm]
        norm_num
      · unfold pathAfterFirst
        simp only [hx, if_false]
        simpa using hd

/-- Filtering to cached ids then reading each title (with an unreachable
default) is the same as `filterMap` over the title lookup. -/
theorem filter_isSome_map_title (g : String → Option SNote) (l : List String) :
    (l.filter (fun nid => (g nid).isSome)).map (fun nid => ((g nid).map SNote.title).getD "") =
      l.filterMap (fun nid => (g nid).map SNote.title) := by
  induction l with
  | nil => rfl
  | cons x xs ih =>
    cases hg : g x <;> simp [List.filter_cons, List.filterMap_cons, hg, ih]

/-- Reduction of the search handler once the ancestor access check grants:
only the `search` validation and the result mapping remain. -/
theorem shareApiNotes_granted (shaca : Shaca) (req : Request) (rows : List SearchRow)
    (aid : String) (note : SNote)
    (ha : req.ancestorNoteIdParam.getD (QueryValue.str "_share") = QueryValue.str aid)
    (hacc : checkNoteAccess shaca aid req = AccessResult.granted note) :
    shareApiNotes shaca req rows =
      (match req.searchParam with
       | some (QueryValue.str search) =>
         if jsTrim search == "" then SearchResponse.badRequest searchMandatoryMsg
         else
           match mapRows shaca aid rows with
           | some rs => SearchResponse.ok rs
           | none => SearchResponse.throws
       | _ => SearchResponse.badRequest searchMandatoryMsg) := by
  simp only [shareApiNotes, ha, hacc]

/-- A 403 response of the search handler can only come from the ancestor
access check. -/
theorem shareApiNotes_forbidden_inv (shaca : Shaca) (req : Request) (rows : List SearchRow)
    (m : String) (h : shareApiNotes shaca req rows = SearchResponse.forbidden m) :
    ∃ aid, checkNoteAccess shaca aid req = AccessResult.forbidden m := by
  cases hv : req.ancestorNoteIdParam.getD (QueryValue.str "_share") with
  | arr l =>
    simp only [shareApiNotes, hv] at h
    exact SearchResponse.noConfusion h
  | str aid =>
    refine ⟨aid, ?_⟩
    cases hc : checkNoteAccess shaca aid req with
    | notFound s =>
      simp only [shareApiNotes, hv, hc] at h
      exact SearchResponse.noConfusion h
    | forbidden s =>
      simp only [shareApiNotes, hv, hc] at h
      injection h with hsm
      rw [hsm]
    | denied =>
      simp only [shareApiNotes, hv, hc] at h
      exact SearchResponse.noConfusion h
    | granted note =>
      exfalso
      simp only [shareApiNotes, hv, hc] at h
      cases hs : req.searchParam with
      | none =>
        rw [hs] at h
        exact SearchResponse.noConfusion h
      | some qv =>
        cases qv with
        | arr l =>
          rw [hs] at h
          exact SearchResponse.noConfusion h
        | str s =>
          rw [hs] at h
          cases ht : (jsTrim s == "") with
          | true =>
            simp only [ht, if_true] at h
            exact SearchResponse.noConfusion h
          | false =>
            simp only [ht, Bool.false_eq_true, if_false] at h
            cases hmr : mapRows shaca aid rows with
            | some rs =>
              rw [hmr] at h
              exact SearchResponse.noConfusion h
            | none =>
              rw [hmr] at h
              exact SearchResponse.noConfusion h

/-! ## Claim theorems -/

/-- C3: for every `SearchContext` with no error recorded yet and every pair
of calls `addError(m1)` then `addError(m2)` with `m1` non-empty (the first
non-empty message recorded wins), the stored error afterwards equals `m1`,
and `hasError()` is true after the first call and remains true after the
second. -/
theorem C3_addError_first_wins (ctx : SearchContext) (m1 m2 : String)
    (hno : ctx.error = none) (h1 : m1 ≠ "") :
    ((ctx.addError m1).addError m2).getError = some m1 ∧
    (ctx.addError m1).hasError = true ∧
    ((ctx.addError m1).addError m2).hasError = true := by
  simp [SearchContext.addError, SearchContext.getError, SearchContext.hasError,
    jsTruthyStr, hno, h1]

/-- Witness for C3 at a freshly constructed context and the messages
`"first"`, `"second"`. -/
theorem C3_addError_first_wins_witness :
    (SearchContext.create {} "root").error = none ∧ "first" ≠ "" ∧
    ((((SearchContext.create {} "root")).addError "first").addError "second").getError = some "first" ∧
    ((SearchContext.create {} "root").addError "first").hasError = true ∧
    ((((SearchContext.create {} "root")).addError "first").addError "second").hasError = true :=
  ⟨rfl, by decide, C3_addError_first_wins (SearchContext.create {} "root") "first" "second" rfl (by decide)⟩

/-- C4 counterexample: an `ancestorNoteId` supplied as the empty string is
not kept unchanged — the JS falsiness test `!this.ancestorNoteId` treats it
as absent, so it is replaced by the hoisted note id. -/
theorem C4_counterexample :
    (SearchContext.create { ancestorNoteId := some "" } "root").ancestorNoteId = some "root" ∧
    (some "root" : Option String) ≠ some "" := by
  exact ⟨rfl, by decide⟩

/-- C4 (amended): with no `ancestorNoteId` (or an empty-string one, which JS
falsiness treats as absent) and `ignoreHoistedNote` false, the constructed
context's `ancestorNoteId` is the configured hoisted note id; with none
supplied and `ignoreHoistedNote` true it stays `undefined`; a supplied
non-empty `ancestorNoteId` is kept unchanged. -/
theorem C4_amended_ancestor_defaulting (p : SearchParams) (hoisted : String) :
    (p.ancestorNoteId = none → p.ignoreHoistedNote.getD false = false →
      (SearchContext.create p hoisted).ancestorNoteId = some hoisted) ∧
    (p.ancestorNoteId = some "" → p.ignoreHoistedNote.getD false = false →
      (SearchContext.create p hoisted).ancestorNoteId = some hoisted) ∧
    (p.ancestorNoteId = none → p.ignoreHoistedNote.getD false = true →
      (SearchContext.create p hoisted).ancestorNoteId = none) ∧
    (∀ s, s ≠ "" → p.ancestorNoteId = some s →
      (SearchContext.create p hoisted).ancestorNoteId = some s) := by
  refine ⟨?_, ?_, ?_, ?_⟩
  · intro h hig
    simp [SearchContext.create, jsTruthyStr, h, hig]
  · intro h hig
    simp [SearchContext.create, jsTruthyStr, h, hig]
  · intro h hig
    simp [SearchContext.create, jsTruthyStr, h, hig]
  · intro s hs h
    simp [SearchContext.create, jsTruthyStr, h, hs]

/-- Witness for C4 (amended): with no ancestor supplied and
`ignoreHoistedNote` absent, the context resolves to the hoisted note id. -/
theorem C4_amended_witness :
    (SearchContext.create {} "root").ancestorNoteId = some "root" :=
  (C4_amended_ancestor_defaulting {} "root").1 rfl rfl

/-- C5: each boolean option of `SearchContext` (`fastSearch`,
`includeArchivedNotes`, `includeHiddenNotes`, `ignoreHoistedNote`,
`ignoreInternalAttributes`, `fuzzyAttributeSearch`) is false when absent from
the constructor input, while `enableFuzzyMatching` is true after construction
for every input, including inputs that attempt to set it. -/
theorem C5_boolean_defaults (p : SearchParams) (hoisted : String) :
    (p.fastSearch = none → (SearchContext.create p hoisted).fastSearch = false) ∧
    (p.includeArchivedNotes = none → (SearchContext.create p hoisted).includeArchivedNotes = false) ∧
    (p.includeHiddenNotes = none → (SearchContext.create p hoisted).includeHiddenNotes = false) ∧
    (p.ignoreHoistedNote = none → (SearchContext.create p hoisted).ignoreHoistedNote = false) ∧
    (p.ignoreInternalAttributes = none → (SearchContext.create p hoisted).ignoreInternalAttributes = false) ∧
    (p.fuzzyAttributeSearch = none → (SearchContext.create p hoisted).fuzzyAttributeSearch = false) ∧
    (SearchContext.create p hoisted).enableFuzzyMatching = true := by
  refine ⟨?_, ?_, ?_, ?_, ?_, ?_, ?_⟩ <;>
    first
      | (intro h; simp [SearchContext.create, h])
      | simp [SearchContext.create]

/-- Witness for C5: all options absent yields `fastSearch = false`, and an
input that attempts to disable `enableFuzzyMatching` still yields `true`. -/
theorem C5_boolean_defaults_witness :
    (SearchContext.create {} "root").fastSearch = false ∧
    (SearchContext.create { enableFuzzyMatching := some false } "root").enableFuzzyMatching = true :=
  ⟨(C5_boolean_defaults {} "root").1 rfl,
   (C5_boolean_defaults { enableFuzzyMatching := some false } "root").2.2.2.2.2.2⟩

/-- C9: the two `checkNoteAccess` implementations (dynamic-dispatch
middleware variant and per-route express variant) are equivalent: for every
noteId, share-cache state and request they return the same decision and emit
the same HTTP status. -/
theorem C9_variants_equivalent (shaca : Shaca) (noteId : String) (req : Request) :
    checkNoteAccessMw shaca noteId req = checkNoteAccess shaca noteId req ∧
    (checkNoteAccessMw shaca noteId req).emittedStatus =
      (checkNoteAccess shaca noteId req).emittedStatus :=
  ⟨rfl, rfl⟩

/-- C1 counterexample: with an accessible credential-free ancestor `anc`, a
search result for the credential-protected note `sec` is included in the 200
response even though `sec` itself fails the per-note credential check for
the same (credential-less) request. -/
theorem C1_counterexample :
    shareApiNotes cacheMain
        ⟨none, some (QueryValue.str "anc"), some (QueryValue.str "x")⟩
        [⟨"sec", ["anc", "sec"], 5⟩] =
      SearchResponse.ok [⟨"sec-share", "Secret", 5, "Secret"⟩] ∧
    checkNoteAccess cacheMain "sec"
        ⟨none, some (QueryValue.str "anc"), some (QueryValue.str "x")⟩ =
      AccessResult.denied := by
  exact ⟨by decide, by decide⟩

/-- C1 (amended): result notes are not individually credential-checked —
only the ancestor is checked once; whenever the ancestor check grants and
the `search` parameter is valid, the response contains one entry for every
search result whose noteId is in the share cache, regardless of the result
notes' own credential labels. -/
theorem C1_amended_results_not_rechecked (shaca : Shaca) (req : Request) (rows : List SearchRow)
    (aid : String) (note : SNote) (q : String)
    (ha : req.ancestorNoteIdParam = some (QueryValue.str aid))
    (hacc : checkNoteAccess shaca aid req = AccessResult.granted note)
    (hq : req.searchParam = some (QueryValue.str q))
    (hqt : (jsTrim q == "") = false)
    (hall : ∀ sr ∈ rows, (shaca.getNote sr.noteId).isSome = true) :
    ∃ rs, shareApiNotes shaca req rows = SearchResponse.ok rs ∧ rs.length = rows.length := by
  obtain ⟨rs, hrs, hlen⟩ := mapRows_length shaca aid rows hall
  refine ⟨rs, ?_, hlen⟩
  rw [shareApiNotes_granted shaca req rows aid note (by rw [ha]; rfl) hacc]
  simp only [hq, hqt, Bool.false_eq_true, if_false, hrs]

/-- Witness for C1 (amended) at the counterexample's concrete input: the
response holds exactly one entry for the one search result, although that
result note carries an unsatisfied credential label. -/
theorem C1_amended_witness :
    ∃ rs,
      shareApiNotes cacheMain
          ⟨none, some (QueryValue.str "anc"), some (QueryValue.str "x")⟩
          [⟨"sec", ["anc", "sec"], 5⟩] =
        SearchResponse.ok rs ∧
      rs.length = 1 :=
  C1_amended_results_not_rechecked cacheMain
    ⟨none, some (QueryValue.str "anc"), some (QueryValue.str "x")⟩
    [⟨"sec", ["anc", "sec"], 5⟩] "anc" noteAnc "x"
    rfl (by decide) rfl (by decide) (by decide)

/-- C2 counterexample: the ancestor note `sec` carries a credential label
and the request has no `Authorization` header, yet the search endpoint does
not answer 401 — it writes no response at all (no status, no
`WWW-Authenticate`). -/
theorem C2_counterexample :
    shareApiNotes cacheMain ⟨none, some (QueryValue.str "sec"), some (QueryValue.str "x")⟩ [] =
      SearchResponse.noResponse ∧
    (shareApiNotes cacheMain ⟨none, some (QueryValue.str "sec"), some (QueryValue.str "x")⟩ []).status =
      none := by
  exact ⟨by decide, by decide⟩

/-- C2 (amended): on the search endpoint, when the ancestor note carries
credential labels and the request has no `Authorization: Basic` header or
the decoded auth string matches none of the credential values, the handler
returns without sending any response (no 401 is emitted on this endpoint);
when the decoded auth string exactly matches one credential label value,
access is granted. -/
theorem C2_amended_credential_check (shaca : Shaca) (req : Request) (rows : List SearchRow)
    (aid : String) (note : SNote)
    (ha : req.ancestorNoteIdParam = some (QueryValue.str aid))
    (hn : shaca.getNote aid = some note)
    (hgate : (aid == "_share" && !shaca.shareIndexEnabled) = false)
    (hc : note.getCredentials ≠ []) :
    (credentialsMatch req.authorization note.getCredentials = false →
      checkNoteAccess shaca aid req = AccessResult.denied ∧
      shareApiNotes shaca req rows = SearchResponse.noResponse ∧
      (shareApiNotes shaca req rows).status = none) ∧
    (credentialsMatch req.authorization note.getCredentials = true →
      checkNoteAccess shaca aid req = AccessResult.granted note) := by
  have hkey := checkNoteAccess_credentialed shaca aid req note hn hgate hc
  constructor
  · intro hcm
    rw [hcm] at hkey
    simp only [Bool.false_eq_true, if_false] at hkey
    have hresp : shareApiNotes shaca req rows = SearchResponse.noResponse := by
      simp only [shareApiNotes, ha, Option.getD_some, hkey]
    exact ⟨hkey, hresp, by rw [hresp]; rfl⟩
  · intro hcm
    rw [hcm] at hkey
    simpa using hkey

/-- Witness for C2 (amended): without an `Authorization` header the
credentialed ancestor `sec` yields no response at all, and with the header
`Basic dXNlcjpwYXNz` (base64 of `user:pass`) access is granted. -/
theorem C2_amended_witness :
    (checkNoteAccess cacheMain "sec"
        ⟨none, some (QueryValue.str "sec"), some (QueryValue.str "x")⟩ =
      AccessResult.denied ∧
    shareApiNotes cacheMain ⟨none, some (QueryValue.str "sec"), some (QueryValue.str "x")⟩ [] =
      SearchResponse.noResponse ∧
    (shareApiNotes cacheMain ⟨none, some (QueryValue.str "sec"), some (QueryValue.str "x")⟩ []).status =
      none) ∧
    checkNoteAccess cacheMain "sec"
        ⟨some "Basic dXNlcjpwYXNz", some (QueryValue.str "sec"), some (QueryValue.str "x")⟩ =
      AccessResult.granted noteSec :=
  ⟨(C2_amended_credential_check cacheMain
      ⟨none, some (QueryValue.str "sec"), some (QueryValue.str "x")⟩ [] "sec" noteSec
      rfl (by decide) (by decide) (by decide)).1 (by decide),
   (C2_amended_credential_check cacheMain
      ⟨some "Basic dXNlcjpwYXNz", some (QueryValue.str "sec"), some (QueryValue.str "x")⟩ [] "sec" noteSec
      rfl (by decide) (by decide) (by decide)).2 (by decide)⟩

/-- C6 counterexample: an absent `ancestorNoteId` does not produce a 400 —
it defaults to `_share` (here answered 403 because the share index is
disabled); and an absent `search` parameter does not produce a 400 when the
ancestor check fails first (here 404 for an unknown ancestor). -/
theorem C6_counterexample :
    shareApiNotes cacheIndexDisabled ⟨none, none, some (QueryValue.str "x")⟩ [] =
      SearchResponse.forbidden shareIndexForbiddenMsg ∧
    (shareApiNotes cacheIndexDisabled ⟨none, none, some (QueryValue.str "x")⟩ []).status ≠
      some 400 ∧
    shareApiNotes cacheMain ⟨none, some (QueryValue.str "nope"), none⟩ [] =
      SearchResponse.notFound (noteNotFoundMsg "nope") ∧
    (shareApiNotes cacheMain ⟨none, some (QueryValue.str "nope"), none⟩ []).status ≠
      some 400 := by
  exact ⟨by decide, by decide, by decide, by decide⟩

/-- C6 (amended): the endpoint returns 400 with a JSON message when the
`ancestorNoteId` query value is present but not a string, and — once the
ancestor access check has granted — when the `search` parameter is absent,
non-string or whitespace-only; an absent `ancestorNoteId` instead defaults
to `_share`. In every 400 case no search is executed: the response does not
depend on the search results. -/
theorem C6_amended_bad_request_conditions (shaca : Shaca) (req : Request) (rows : List SearchRow) :
    (∀ l, req.ancestorNoteIdParam = some (QueryValue.arr l) →
      shareApiNotes shaca req rows = SearchResponse.badRequest ancestorMandatoryMsg) ∧
    (∀ aid note, req.ancestorNoteIdParam.getD (QueryValue.str "_share") = QueryValue.str aid →
      checkNoteAccess shaca aid req = AccessResult.granted note →
      searchParamBlank req = true →
      shareApiNotes shaca req rows = SearchResponse.badRequest searchMandatoryMsg) ∧
    (∀ m, shareApiNotes shaca req rows = SearchResponse.badRequest m →
      ∀ rows2, shareApiNotes shaca req rows2 = SearchResponse.badRequest m) := by
  refine ⟨?_, ?_, ?_⟩
  · intro l hl
    simp only [shareApiNotes, hl, Option.getD_some]
  · intro aid note ha hacc hblank
    rw [shareApiNotes_granted shaca req rows aid note ha hacc]
    cases hs : req.searchParam with
    | none => rfl
    | some qv =>
      cases qv with
      | arr l => rfl
      | str s =>
        have hblank2 : (jsTrim s == "") = true := by
          simpa [searchParamBlank, hs] using hblank
        simp [hblank2]
  · intro m hm rows2
    cases hv : req.ancestorNoteIdParam.getD (QueryValue.str "_share") with
    | arr l =>
      simp only [shareApiNotes, hv] at hm ⊢
      exact hm
    | str aid =>
      cases hc : checkNoteAccess shaca aid req with
      | notFound s =>
        simp only [shareApiNotes, hv, hc] at hm
        exact SearchResponse.noConfusion hm
      | forbidden s =>
        simp only [shareApiNotes, hv, hc] at hm
        exact SearchResponse.noConfusion hm
      | denied =>
        simp only [shareApiNotes, hv, hc] at hm
        exact SearchResponse.noConfusion hm
      | granted note =>
        simp only [shareApiNotes, hv, hc] at hm ⊢
        cases hs : req.searchParam with
        | none =>
          rw [hs] at hm
          exact hm
        | some qv =>
          cases qv with
          | arr l =>
            rw [hs] at hm
            exact hm
          | str s =>
            rw [hs] at hm
            cases ht : (jsTrim s == "") with
            | true =>
              simp only [ht, if_true] at hm ⊢
              exact hm
            | false =>
              exfalso
              simp only [ht, Bool.false_eq_true, if_false] at hm
              cases hmr : mapRows shaca aid rows with
              | some rs =>
                rw [hmr] at hm
                exact SearchResponse.noConfusion hm
              | none =>
                rw [hmr] at hm
                exact SearchResponse.noConfusion hm

/-- Witness for C6 (amended): a non-string (array) `ancestorNoteId` query
value yields the 400 message. -/
theorem C6_amended_witness :
    shareApiNotes cacheMain ⟨none, some (QueryValue.arr []), some (QueryValue.str "x")⟩ [] =
      SearchResponse.badRequest ancestorMandatoryMsg :=
  (C6_amended_bad_request_conditions cacheMain
    ⟨none, some (QueryValue.arr []), some (QueryValue.str "x")⟩ []).1 [] rfl

/-- C7 counterexample: with the share index disabled but the `_share` note
absent from the cache, an ancestor-less request is answered 404, not 403 —
the 403 does not hold "exactly when the share index is disabled". -/
theorem C7_counterexample :
    cacheEmptyDisabled.shareIndexEnabled = false ∧
    shareApiNotes cacheEmptyDisabled ⟨none, none, some (QueryValue.str "x")⟩ [] =
      SearchResponse.notFound (noteNotFoundMsg "_share") ∧
    (shareApiNotes cacheEmptyDisabled ⟨none, none, some (QueryValue.str "x")⟩ []).status ≠
      some 403 := by
  exact ⟨by decide, by decide, by decide⟩

/-- C7 (amended): when `ancestorNoteId` is omitted the search is rooted at
the reserved share index note `_share` (the request behaves exactly as if
`ancestorNoteId=_share` had been passed); provided the `_share` note is in
the share cache, the response is 403 exactly when the share index is
disabled; when it is enabled (and `_share` carries no credential labels) the
access check grants and the request proceeds. -/
theorem C7_amended_share_index_gate (shaca : Shaca) (req : Request) (rows : List SearchRow)
    (habs : req.ancestorNoteIdParam = none) :
    shareApiNotes shaca req rows =
      shareApiNotes shaca ⟨req.authorization, some (QueryValue.str "_share"), req.searchParam⟩ rows ∧
    (∀ n, shaca.getNote "_share" = some n →
      ((shareApiNotes shaca req rows).status = some 403 ↔ shaca.shareIndexEnabled = false)) ∧
    (∀ n, shaca.getNote "_share" = some n → shaca.shareIndexEnabled = true →
      n.getCredentials = [] →
      checkNoteAccess shaca "_share" req = AccessResult.granted n) := by
  have hcongr : checkNoteAccess shaca "_share" req =
      checkNoteAccess shaca "_share" ⟨req.authorization, some (QueryValue.str "_share"), req.searchParam⟩ :=
    checkNoteAccess_congr_auth shaca "_share" req
      ⟨req.authorization, some (QueryValue.str "_share"), req.searchParam⟩ rfl
  refine ⟨?_, ?_, ?_⟩
  · simp only [shareApiNotes, habs, Option.getD_none, Option.getD_some]
    rw [← hcongr]
  · intro n hg
    cases hE : shaca.shareIndexEnabled with
    | false =>
      have hforb : shareApiNotes shaca req rows = SearchResponse.forbidden shareIndexForbiddenMsg := by
        simp only [shareApiNotes, habs, Option.getD_none,
          checkNoteAccess_share_gate shaca req n hg hE]
      rw [hforb]
      exact ⟨fun _ => rfl, fun _ => rfl⟩
    | true =>
      constructor
      · intro h403
        exfalso
        cases hresp : shareApiNotes shaca req rows with
        | forbidden s =>
          obtain ⟨aid, hfa⟩ := shareApiNotes_forbidden_inv shaca req rows s hresp
          have hdis := checkNoteAccess_forbidden_disabled shaca aid req s hfa
          rw [hE] at hdis
          exact Bool.noConfusion hdis
        | badRequest s =>
          rw [hresp] at h403
          simp [SearchResponse.status] at h403
        | notFound s =>
          rw [hresp] at h403
          simp [SearchResponse.status] at h403
        | noResponse =>
          rw [hresp] at h403
          simp [SearchResponse.status] at h403
        | ok rs =>
          rw [hresp] at h403
          simp [SearchResponse.status] at h403
        | throws =>
          rw [hresp] at h403
          simp [SearchResponse.status] at h403
      · intro hcon
        exact absurd hcon (by simp)
  · intro n hg hE hc
    exact checkNoteAccess_granted_plain shaca "_share" req n hg hE hc

/-- Witness for C7 (amended): with `_share` cached and the share index
disabled, the ancestor-less request is answered 403. -/
theorem C7_amended_witness :
    (shareApiNotes cacheIndexDisabled ⟨none, none, some (QueryValue.str "x")⟩ []).status =
      some 403 :=
  ((C7_amended_share_index_gate cacheIndexDisabled
    ⟨none, none, some (QueryValue.str "x")⟩ [] rfl).2.1 shareRootNote rfl).mpr rfl

/-- C8: every successfully mapped search result carries the note's public
`shareId` as its `id` and its `path` equals the titles of the notes on
`notePathArray` strictly after the first `ancestorNoteId` position, keeping
only ids present in the public share cache, joined with `" / "` (the
spec-side formulation `specSharePath`). -/
theorem C8_result_mapping (shaca : Shaca) (aid : String) (sr : SearchRow) (note : SNote)
    (hn : shaca.getNote sr.noteId = some note) (hmem : aid ∈ sr.notePathArray) :
    mapSearchRow shaca aid sr =
      some { id := note.shareId, title := note.title, score := sr.score,
             path := specSharePath shaca aid sr.notePathArray } := by
  obtain ⟨m, hm, hd⟩ := jsIndexOf_drop aid sr.notePathArray hmem
  have htn : (jsIndexOf sr.notePathArray aid + 1).toNat = m + 1 := by
    rw [hm]
    norm_num
  unfold mapSearchRow
  rw [hn]
  simp only [htn, hd, filter_isSome_map_title, specSharePath]

/-- Witness for C8 at a concrete cache and search result. -/
theorem C8_result_mapping_witness :
    cacheMain.getNote "kid" = some noteKid ∧ "anc" ∈ ["anc", "kid"] ∧
    mapSearchRow cacheMain "anc" ⟨"kid", ["anc", "kid"], 3⟩ =
      some { id := noteKid.shareId, title := noteKid.title, score := 3,
             path := specSharePath cacheMain "anc" ["anc", "kid"] } :=
  ⟨by decide, by decide,
   C8_result_mapping cacheMain "anc" ⟨"kid", ["anc", "kid"], 3⟩ noteKid (by decide) (by decide)⟩

/-- C10 counterexample: a search result whose noteId is absent from the
public share cache makes the handler throw instead of responding — the
unguarded lookup is not defined for every result the search service could
produce. -/
theorem C10_counterexample :
    cacheMain.getNote "ghost" = none ∧
    shareApiNotes cacheMain ⟨none, some (QueryValue.str "anc"), some (QueryValue.str "x")⟩
        [⟨"ghost", [], 1⟩] =
      SearchResponse.throws := by
  exact ⟨by decide, by decide⟩

/-- C10 (amended): the `shaca.notes[sr.noteId]` indexing in the result
mapping is unguarded — once the request validations pass, the handler
throws exactly when some search result's noteId is absent from the public
share cache (and responds with JSON otherwise). -/
theorem C10_amended_unguarded_lookup (shaca : Shaca) (req : Request) (rows : List SearchRow)
    (aid : String) (note : SNote) (q : String)
    (ha : req.ancestorNoteIdParam = some (QueryValue.str aid))
    (hacc : checkNoteAccess shaca aid req = AccessResult.granted note)
    (hq : req.searchParam = some (QueryValue.str q))
    (hqt : (jsTrim q == "") = false) :
    shareApiNotes shaca req rows = SearchResponse.throws ↔
      ∃ sr ∈ rows, shaca.getNote sr.noteId = none := by
  have hred : shareApiNotes shaca req rows =
      (match mapRows shaca aid rows with
       | some rs => SearchResponse.ok rs
       | none => SearchResponse.throws) := by
    rw [shareApiNotes_granted shaca req rows aid note (by rw [ha]; rfl) hacc]
    simp only [hq, hqt, Bool.false_eq_true, if_false]
  rw [hred, ← mapRows_none_iff shaca aid rows]
  cases hmr : mapRows shaca aid rows with
  | some rs => simp
  | none => simp

/-- Witness for C10 (amended) at a concrete absent noteId. -/
theorem C10_amended_witness :
    shareApiNotes cacheMain ⟨none, some (QueryValue.str "anc"), some (QueryValue.str "x")⟩
        [⟨"ghost", [], 1⟩] =
      SearchResponse.throws :=
  (C10_amended_unguarded_lookup cacheMain
    ⟨none, some (QueryValue.str "anc"), some (QueryValue.str "x")⟩
    [⟨"ghost", [], 1⟩] "anc" noteAnc "x" rfl (by decide) rfl (by decide)).mpr
    ⟨⟨"ghost", [], 1⟩, by decide, by decide⟩

end Trilium
